import Mathlib

/-!
Verification development for the RAG-powered chatbot server.

Shallow embedding of the core pipeline code:
- the sentence chunker of the news-ingestion service (chunkText),
- the embedding service (generateEmbedding with retry, generateBatchEmbeddings),
- the streaming service (streamResponse),
- the RAG service (processQuery, prepareContext, prepareSources, logInteraction).

Texts are modelled as lists of characters, similarity scores as rationals,
external collaborators (embedding provider, generative model, database sink,
date formatter) as explicit function parameters, and observable side effects
(generation calls, log submissions, session-channel events) as event traces.
-/

set_option maxRecDepth 100000
set_option linter.unusedVariables false

/-- Texts are lists of characters. -/
abbrev Str := List Char

/-- Whitespace recognised by the JavaScript trim used in the source. -/
def isWS (c : Char) : Bool := c = ' ' || c = '\n' || c = '\t' || c = '\r'

/-- Model of the JavaScript String.prototype.trim: drop whitespace at both ends. -/
def jsTrim (l : Str) : Str := ((l.dropWhile isWS).reverse.dropWhile isWS).reverse

/-! ### Chunker (NewsIngestionService.chunkText) -/

/-- The sentence-boundary characters of the split regex in chunkText. -/
def isPunct (c : Char) : Bool := c = '.' || c = '!' || c = '?'

/-- Model of the JavaScript split on one-or-more punctuation characters:
a maximal punctuation run ends the current piece; the flag records whether the
previous character was punctuation so that runs produce a single boundary. -/
def splitPunctAux (prevPunct : Bool) (cur : Str) : Str → List Str
  | [] => [cur.reverse]
  | c :: cs =>
    if isPunct c then
      if prevPunct then splitPunctAux true cur cs
      else cur.reverse :: splitPunctAux true [] cs
    else splitPunctAux false (c :: cur) cs

/-- text.split on the punctuation class, as in chunkText. -/
def splitPunct (l : Str) : List Str := splitPunctAux false [] l

/-- Article metadata handed to the chunker. -/
structure Article where
  id : Str
  title : Str
  link : Str
  source : Str
  pubDate : Str
  author : Str
  categories : List Str
deriving DecidableEq

/-- A chunk emitted by chunkText, with the metadata copied from the article. -/
structure NChunk where
  articleId : Str
  chunkIndex : ℕ
  text : Str
  articleTitle : Str
  articleUrl : Str
  source : Str
  pubDate : Str
deriving DecidableEq

/-- Build one emitted chunk from the article metadata, its index and its text. -/
def mkChunk (art : Article) (idx : ℕ) (t : Str) : NChunk :=
  ⟨art.id, idx, t, art.title, art.link, art.source, art.pubDate⟩

/-- sentences.slice(max(0, i - 2), i): keep the last two raw sentences seen. -/
def push2 (p : List Str) (s : Str) : List Str :=
  match p with
  | [] => [s]
  | [a] => [a, s]
  | _ :: b :: _ => [b, s]

/-- Array.prototype.join with a separator. -/
def joinSep (sep : Str) : List Str → Str
  | [] => []
  | [a] => a
  | a :: b :: rest => a ++ sep ++ joinSep sep (b :: rest)

/-- The two-character separator used when seeding the overlap buffer. -/
def dotSpace : Str := '.' :: ' ' :: []

/-- overlapSentences.join plus the conditional trailing separator, as in chunkText. -/
def overlapSeed (p : List Str) : Str :=
  joinSep dotSpace p ++ (if p.isEmpty then [] else dotSpace)

/-- The accumulation loop of chunkText: buf is the running buffer, prev2 the
last two raw sentences (the overlap source), idx the next chunk index. -/
def chunkLoop (art : Article) (maxCS : ℕ) (buf : Str) (prev2 : List Str) (idx : ℕ) :
    List Str → List NChunk
  | [] => if 50 < (jsTrim buf).length then [mkChunk art idx (jsTrim buf)] else []
  | s :: rest =>
    let sentence := jsTrim s ++ ['.']
    if maxCS < buf.length + sentence.length ∧ 0 < buf.length then
      mkChunk art idx (jsTrim buf) ::
        chunkLoop art maxCS (overlapSeed prev2 ++ sentence ++ [' ']) (push2 prev2 s) (idx + 1)
          rest
    else
      chunkLoop art maxCS (buf ++ sentence ++ [' ']) (push2 prev2 s) idx rest

/-- NewsIngestionService.chunkText: guard on short input, split into sentences,
drop blank pieces, then run the accumulation loop. The overlap parameter is
accepted but, as in the source, the final-chunk threshold is the literal 50. -/
def chunkText (text : Str) (art : Article) (maxCS : ℕ) (overlap : ℕ) : List NChunk :=
  if text.length < 100 then []
  else chunkLoop art maxCS [] [] 0 ((splitPunct text).filter (fun s => 0 < (jsTrim s).length))

/-- Length of the longest sentence piece of a text, used to state length bounds
for the chunker (a rendered trailing sentence is one trimmed piece plus one dot). -/
def maxSentLen (text : Str) : ℕ :=
  ((splitPunct text).filter (fun s => 0 < (jsTrim s).length)).foldr
    (fun s m => max s.length m) 0

/-! ### Embedding service (EmbeddingService) -/

/-- Line 26 of embeddings.js: texts longer than 8000 characters are replaced by
their first 8000 characters with three dots appended. -/
def truncatedText (t : Str) : Str :=
  if 8000 < t.length then t.take 8000 ++ ('.' :: '.' :: '.' :: []) else t

/-- Observable outcome of generateEmbedding: the returned value or raised error,
the number of provider calls made, and the waits performed between attempts. -/
structure EmbOutcome where
  result : Except Str (List ℚ)
  calls : ℕ
  delays : List ℕ

/-- The retry loop of generateEmbedding. The provider is indexed by the attempt
number; remaining counts the attempts still allowed, so the last allowed attempt
(remaining reaching one) rethrows the provider failure as the final error.
The zero-fuel case is unreachable from generateEmbedding. -/
def retryLoop (provider : Str → ℕ → Except Str (List ℚ)) (t : Str) (retryDelay : ℕ) :
    (attempt : ℕ) → (remaining : ℕ) → EmbOutcome
  | _, 0 => ⟨Except.error ("loop exit".toList), 0, []⟩
  | attempt, remaining + 1 =>
    match provider t attempt with
    | Except.ok v => ⟨Except.ok v, 1, []⟩
    | Except.error e =>
      if remaining = 0 then
        ⟨Except.error (("Failed to generate embedding after 3 attempts: ".toList) ++ e), 1, []⟩
      else
        let rest := retryLoop provider t retryDelay (attempt + 1) remaining
        ⟨rest.result, rest.calls + 1, retryDelay * attempt :: rest.delays⟩

/-- EmbeddingService.generateEmbedding: empty-text and missing-key guards, then
the truncation of line 26 and up to maxRetries = 3 provider attempts with
retryDelay = 1000 linear backoff. -/
def generateEmbedding (hasKey : Bool) (provider : Str → ℕ → Except Str (List ℚ))
    (text : Str) : EmbOutcome :=
  if (jsTrim text).length = 0 then ⟨Except.error ("Text cannot be empty".toList), 0, []⟩
  else if !hasKey then ⟨Except.error ("JINA_API_KEY not configured".toList), 0, []⟩
  else retryLoop provider (truncatedText text) 1000 1 3

/-- Promise.all over one sub-batch of per-text calls: the first failure rejects
the whole sub-batch, otherwise the results are collected in input order.
The per-text call is the observable behaviour of generateEmbedding. -/
def mapAll (gen : Str → Except Str (List ℚ)) : List Str → Except Str (List (List ℚ))
  | [] => Except.ok []
  | t :: ts =>
    match gen t with
    | Except.error e => Except.error e
    | Except.ok v =>
      match mapAll gen ts with
      | Except.error e => Except.error e
      | Except.ok vs => Except.ok (v :: vs)

/-- The sub-batch partition of generateBatchEmbeddings: repeatedly slice the
next ten texts. Fuel is the input length, which always suffices. -/
def toBatchesAux : ℕ → List Str → List (List Str)
  | 0, _ => []
  | _, [] => []
  | fuel + 1, l => l.take 10 :: toBatchesAux fuel (l.drop 10)

/-- The sub-batch loop of generateBatchEmbeddings: run each sub-batch in order,
appending results; a sub-batch launches all its per-text calls. Returns the
overall result and the number of per-text calls issued. -/
def runBatches (gen : Str → Except Str (List ℚ)) :
    List (List Str) → Except Str (List (List ℚ)) × ℕ
  | [] => (Except.ok [], 0)
  | b :: bs =>
    match mapAll gen b with
    | Except.error e => (Except.error e, b.length)
    | Except.ok es =>
      let rest := runBatches gen bs
      (Except.map (fun l => es ++ l) rest.1, b.length + rest.2)

/-- EmbeddingService.generateBatchEmbeddings: reject an empty input before any
provider call, otherwise process the texts in sub-batches of ten. -/
def generateBatchEmbeddings (gen : Str → Except Str (List ℚ)) (texts : List Str) :
    Except Str (List (List ℚ)) × ℕ :=
  if texts.isEmpty then (Except.error ("Texts must be a non-empty array".toList), 0)
  else runBatches gen (toBatchesAux texts.length texts)

/-! ### Streaming service (StreamingService.streamResponse) -/

/-- An event published to the session channel. -/
inductive SEvent where
  | messageChunk (sessionId : Str) (chunk : Str) (isComplete : Bool) (fullResponse : Option Str)
  | messageError (sessionId : Str)
deriving DecidableEq

/-- The provider fragment stream: the fragments it yields in order, and whether
it fails after yielding them instead of ending normally. -/
structure PStream where
  frags : List Str
  fails : Bool
deriving DecidableEq

/-- The fragment loop of streamResponse: accumulate the full response and emit
one message-chunk event per fragment, in order. -/
def streamLoop (sid : Str) (acc : Str) : List Str → Str × List SEvent
  | [] => (acc, [])
  | f :: fs =>
    let rest := streamLoop sid (acc ++ f) fs
    (rest.1, SEvent.messageChunk sid f false none :: rest.2)

/-- StreamingService.streamResponse: on normal stream end emit one completion
event carrying the concatenated text; on a mid-stream provider failure emit a
message-error event and rethrow (no retry). Returns the result and the ordered
event trace for the session channel. -/
def streamResponse (sid : Str) (s : PStream) : Except Str Str × List SEvent :=
  let run := streamLoop sid [] s.frags
  if s.fails then
    (Except.error ("Failed to generate response".toList), run.2 ++ [SEvent.messageError sid])
  else
    (Except.ok run.1, run.2 ++ [SEvent.messageChunk sid [] true (some run.1)])

/-! ### RAG service (RAGService) -/

/-- A chunk returned by the vector search, with its similarity score. -/
structure RChunk where
  text : Str
  articleTitle : Str
  articleUrl : Str
  source : Str
  pubDate : Str
  score : ℚ
deriving DecidableEq

/-- A source citation prepared for the frontend. -/
structure Citation where
  title : Str
  url : Str
  source : Str
  pubDate : Str
  relevanceScore : ℚ
deriving DecidableEq

/-- The RAGService constructor configuration. -/
structure RAGConfig where
  contextWindow : ℕ
  maxSources : ℕ
  similarityThreshold : ℚ
deriving DecidableEq

/-- The defaults set in the RAGService constructor (0.7 is the rational 7/10). -/
def defaultRAGConfig : RAGConfig := ⟨4000, 5, mkRat 7 10⟩

/-- Descending-score comparison used by the chunk sorts. -/
def scoreGe (a b : RChunk) : Prop := b.score ≤ a.score

instance : DecidableRel scoreGe := fun a b => inferInstanceAs (Decidable (b.score ≤ a.score))

instance : IsTotal RChunk scoreGe := ⟨fun a b => le_total b.score a.score⟩

instance : IsTrans RChunk scoreGe := ⟨fun _ _ _ h₁ h₂ => le_trans h₂ h₁⟩

/-- Descending-relevance comparison used by the citation sort. -/
def citeGe (a b : Citation) : Prop := b.relevanceScore ≤ a.relevanceScore

instance : DecidableRel citeGe :=
  fun a b => inferInstanceAs (Decidable (b.relevanceScore ≤ a.relevanceScore))

instance : IsTotal Citation citeGe := ⟨fun a b => le_total b.relevanceScore a.relevanceScore⟩

instance : IsTrans Citation citeGe := ⟨fun _ _ _ h₁ h₂ => le_trans h₂ h₁⟩

/-- The stable descending sort performed on chunk arrays. -/
def sortChunks (l : List RChunk) : List RChunk := List.insertionSort scoreGe l

/-- Step 3 of processQuery: keep the chunks at or above the similarity threshold. -/
def relevantChunks (th : ℚ) (searchResults : List RChunk) : List RChunk :=
  searchResults.filter (fun c => decide (th ≤ c.score))

/-- The query preamble prepended to the assembled context. -/
def queryContext (query : Str) : Str :=
  ("User Question: ".toList) ++ query ++ ("\n\nRelevant News Information:\n\n".toList)

/-- The rendered block of one chunk inside the context. The locale date
formatting of the source is an external function passed as fmtDate. -/
def renderChunk (fmtDate : Str → Str) (c : RChunk) : Str :=
  ("Source: ".toList) ++ c.source ++ (" - ".toList) ++ c.articleTitle ++
    ("\nPublished: ".toList) ++ fmtDate c.pubDate ++ ("\nContent: ".toList) ++ c.text ++
    ("\n\n".toList)

/-- The packing loop of prepareContext: walk the sorted chunks, breaking before
the first chunk whose rendered block would push the running length over the
window. Returns the appended text and the used chunks. -/
def contextLoop (cw : ℕ) (fmtDate : Str → Str) (curLen : ℕ) : List RChunk → Str × List RChunk
  | [] => ([], [])
  | c :: cs =>
    let r := renderChunk fmtDate c
    if cw < curLen + r.length then ([], [])
    else
      let rest := contextLoop cw fmtDate (curLen + r.length) cs
      (r ++ rest.1, c :: rest.2)

/-- The value returned by prepareContext. -/
structure ContextResult where
  text : Str
  chunks : List RChunk
  length : ℕ

/-- RAGService.prepareContext: sort by score descending, start from the query
preamble, and greedily append whole rendered chunks within the window. -/
def prepareContext (cfg : RAGConfig) (fmtDate : Str → Str) (chunks : List RChunk)
    (query : Str) : ContextResult :=
  let sorted := sortChunks chunks
  let pre := queryContext query
  let run := contextLoop cfg.contextWindow fmtDate pre.length sorted
  ⟨pre ++ run.1, run.2, pre.length + run.1.length⟩

/-- The Map-based deduplication of prepareSources: the first chunk seen for an
article URL provides that article's citation. -/
def dedupByUrl (seen : List Str) : List RChunk → List Citation
  | [] => []
  | c :: cs =>
    if c.articleUrl ∈ seen then dedupByUrl seen cs
    else ⟨c.articleTitle, c.articleUrl, c.source, c.pubDate, c.score⟩ ::
      dedupByUrl (c.articleUrl :: seen) cs

/-- RAGService.prepareSources: deduplicate by article URL, sort by relevance
score descending, and keep at most maxSources entries. -/
def prepareSources (cfg : RAGConfig) (chunks : List RChunk) : List Citation :=
  (List.insertionSort citeGe (dedupByUrl [] chunks)).take cfg.maxSources

/-- The metrics object logged and returned by processQuery. -/
structure LogMetadata where
  processingTime : ℕ
  chunksFound : ℕ
  chunksUsed : ℕ
  contextLength : ℕ
deriving DecidableEq

/-- Observable external effects of one processQuery run. -/
inductive RAGEvent where
  | genCall (query : Str) (contextText : Str)
  | logSubmit (sessionId : Str) (query : Str) (response : Str) (sources : List Citation)
      (metadata : LogMetadata)
deriving DecidableEq

/-- Recognise a generation-service call in the event trace. -/
def isGenCall : RAGEvent → Bool
  | RAGEvent.genCall _ _ => true
  | _ => false

/-- Recognise an interaction-log submission in the event trace. -/
def isLogSubmit : RAGEvent → Bool
  | RAGEvent.logSubmit _ _ _ _ _ => true
  | _ => false

/-- The database handle used by logInteraction: connectivity plus the insert
call, whose outcome models the external log sink accepting or failing. -/
structure Db where
  isConnected : Bool
  sink : Str → Str → Str → List Citation → LogMetadata → Except Str Unit

/-- RAGService.logInteraction: return silently when the database is not
connected; otherwise attempt the insert, and swallow a sink failure so that it
never escapes (both outcomes leave only the submission attempt in the trace). -/
def logInteraction (db : Db) (sessionId query response : Str) (sources : List Citation)
    (md : LogMetadata) : List RAGEvent :=
  if db.isConnected then
    match db.sink sessionId query response sources md with
    | Except.ok _ => [RAGEvent.logSubmit sessionId query response sources md]
    | Except.error _ => [RAGEvent.logSubmit sessionId query response sources md]
  else []

/-- The value returned to the caller by processQuery. -/
structure QueryResult where
  response : Str
  sources : List Citation
  metadata : LogMetadata
deriving DecidableEq

/-- The options argument of processQuery; a field set to a falsy value (absent,
or zero for the threshold) falls back to the constructor default, matching the
JavaScript or-else defaulting. -/
structure QueryOptions where
  similarityThreshold : Option ℚ
  maxSources : Option ℕ

/-- options.similarityThreshold or-else default: none and zero are falsy. -/
def orFalsy (o : Option ℚ) (d : ℚ) : ℚ :=
  match o with
  | none => d
  | some x => if x = 0 then d else x

/-- The fixed no-relevant-information response of the short-circuit branch. -/
def fallbackResponse : Str :=
  ("I couldn\x27t find any relevant information in the recent news articles to answer your question. Could you try rephrasing your question or asking about a different topic?".toList)

/-- RAGService.processQuery, given the vector-search results and the external
collaborators (generation service gen, database db, date formatter fmtDate,
elapsed wall-clock time). Returns the caller-visible outcome and the trace of
external effects. The filtered array is sorted in place by prepareContext, so
prepareSources receives it already sorted by score descending. -/
def processQuery (cfg : RAGConfig) (db : Db) (gen : Str → Str → Except Str Str)
    (fmtDate : Str → Str) (elapsed : ℕ) (searchResults : List RChunk)
    (query sessionId : Str) (opts : QueryOptions) :
    Except Str QueryResult × List RAGEvent :=
  let th := orFalsy opts.similarityThreshold cfg.similarityThreshold
  let relevant := relevantChunks th searchResults
  if relevant.isEmpty then
    (Except.ok ⟨fallbackResponse, [], ⟨elapsed, searchResults.length, 0, 0⟩⟩, [])
  else
    let context := prepareContext cfg fmtDate relevant query
    let sortedRelevant := sortChunks relevant
    match gen query context.text with
    | Except.error e =>
      (Except.error (("RAG processing failed: ".toList) ++ e),
        [RAGEvent.genCall query context.text])
    | Except.ok response =>
      let sources := prepareSources cfg sortedRelevant
      let md : LogMetadata := ⟨elapsed, searchResults.length, relevant.length,
        context.text.length⟩
      (Except.ok ⟨response, sources, md⟩,
        RAGEvent.genCall query context.text ::
          logInteraction db sessionId query response sources md)


/-! ### Helper lemmas -/

theorem streamLoop_spec (sid : Str) : ∀ (fs : List Str) (acc : Str),
    streamLoop sid acc fs =
      (acc ++ fs.flatten, fs.map (fun f => SEvent.messageChunk sid f false none)) := by
  intro fs
  induction fs with
  | nil => intro acc; simp [streamLoop]
  | cons f fs ih => intro acc; simp [streamLoop, ih]

theorem retryLoop_succ (provider : Str → ℕ → Except Str (List ℚ)) (t : Str)
    (d attempt rem : ℕ) :
    retryLoop provider t d attempt (rem + 1) =
      match provider t attempt with
      | Except.ok v => ⟨Except.ok v, 1, []⟩
      | Except.error e =>
        if rem = 0 then
          ⟨Except.error (("Failed to generate embedding after 3 attempts: ".toList) ++ e), 1, []⟩
        else
          let rest := retryLoop provider t d (attempt + 1) rem
          ⟨rest.result, rest.calls + 1, d * attempt :: rest.delays⟩ := rfl

/-! ### C9 -/

/-- C9: for a provider stream yielding fragments in order, streamResponse emits
one message-chunk event per fragment with isComplete false, in emission order,
followed by exactly one event with isComplete true carrying the concatenation;
a mid-stream failure instead ends the trace with a message-error event and an
error result, with no retry. -/
theorem streamResponse_event_contract (sid : Str) (frags : List Str) :
    streamResponse sid ⟨frags, false⟩ =
      (Except.ok frags.flatten,
        frags.map (fun f => SEvent.messageChunk sid f false none) ++
          [SEvent.messageChunk sid [] true (some frags.flatten)]) ∧
    streamResponse sid ⟨frags, true⟩ =
      (Except.error ("Failed to generate response".toList),
        frags.map (fun f => SEvent.messageChunk sid f false none) ++
          [SEvent.messageError sid]) := by
  constructor <;> simp [streamResponse, streamLoop_spec]

/-! ### C6 -/

/-- C6 counterexample: on an input of 8001 characters the text sent to the
provider has length 8003, so it neither stays within 8000 characters nor is a
prefix of the input. -/
theorem truncation_cex :
    ¬ ((truncatedText (List.replicate 8001 'a')).length ≤ 8000 ∧
        ∃ rest, truncatedText (List.replicate 8001 'a') ++ rest = List.replicate 8001 'a') := by
  intro h
  have hlen : (truncatedText (List.replicate 8001 'a')).length = 8003 := by
    simp only [truncatedText, List.length_replicate]
    rw [if_pos (by omega)]
    rw [List.length_append, List.length_take, List.length_replicate]
    simp only [List.length_cons, List.length_nil]
    omega
  omega

/-- C6 amended: inputs of length at most 8000 are sent unchanged; a longer
input is sent as its first 8000 characters with three dots appended, a text of
length 8003 whose first 8000 characters are a prefix of the input. -/
theorem truncatedText_spec (t : Str) :
    (t.length ≤ 8000 → truncatedText t = t) ∧
    (8000 < t.length →
      truncatedText t = t.take 8000 ++ ('.' :: '.' :: '.' :: []) ∧
      (truncatedText t).length = 8003 ∧
      t.take 8000 ++ t.drop 8000 = t) := by
  constructor
  · intro h
    simp only [truncatedText]
    rw [if_neg (by omega)]
  · intro h
    refine ⟨by simp only [truncatedText]; rw [if_pos h], ?_, List.take_append_drop 8000 t⟩
    simp only [truncatedText]
    rw [if_pos h, List.length_append, List.length_take]
    simp only [List.length_cons, List.length_nil]
    omega

/-- C6 witness: a short text is sent unchanged; the 8001-character input is
sent as an 8003-character text. -/
theorem truncatedText_spec_witness :
    truncatedText ('h' :: []) = 'h' :: [] ∧
    (truncatedText (List.replicate 8001 'a')).length = 8003 :=
  ⟨(truncatedText_spec _).1 (by decide),
   ((truncatedText_spec (List.replicate 8001 'a')).2 (by rw [List.length_replicate]; omega)).2.1⟩

/-! ### C7 -/

/-- C7: when the provider fails on attempts one and two, a success on attempt
three yields that embedding with three calls and waits of 1000 and 2000
milliseconds between attempts, with no externally visible error; a third
failure raises the embedding-failure error after exactly three calls, never a
fourth. -/
theorem generateEmbedding_retry (provider : Str → ℕ → Except Str (List ℚ)) (text : Str)
    (e₁ e₂ : Str)
    (hne : (jsTrim text).length ≠ 0)
    (h1 : provider (truncatedText text) 1 = Except.error e₁)
    (h2 : provider (truncatedText text) 2 = Except.error e₂) :
    (∀ v, provider (truncatedText text) 3 = Except.ok v →
      generateEmbedding true provider text = ⟨Except.ok v, 3, [1000, 2000]⟩) ∧
    (∀ e₃, provider (truncatedText text) 3 = Except.error e₃ →
      (generateEmbedding true provider text).result =
        Except.error (("Failed to generate embedding after 3 attempts: ".toList) ++ e₃) ∧
      (generateEmbedding true provider text).calls = 3) := by
  have hunfold : generateEmbedding true provider text =
      retryLoop provider (truncatedText text) 1000 1 3 := by
    simp only [generateEmbedding]
    rw [if_neg hne]
    rfl
  constructor
  · intro v h3
    rw [hunfold, show (3 : ℕ) = 2 + 1 from rfl, retryLoop_succ, h1]
    simp only [reduceIte]
    rw [show (2 : ℕ) = 1 + 1 from rfl, retryLoop_succ, h2]
    simp only [reduceIte]
    rw [show (1 : ℕ) = 0 + 1 from rfl, retryLoop_succ, h3]
    rfl
  · intro e₃ h3
    rw [hunfold, show (3 : ℕ) = 2 + 1 from rfl, retryLoop_succ, h1]
    simp only [reduceIte]
    rw [show (2 : ℕ) = 1 + 1 from rfl, retryLoop_succ, h2]
    simp only [reduceIte]
    rw [show (1 : ℕ) = 0 + 1 from rfl, retryLoop_succ, h3]
    exact ⟨rfl, rfl⟩

/-- C7 witness: a provider failing twice then succeeding on the third attempt
yields the embedding after three calls with waits of one and two seconds; a
provider failing three times yields three calls and the failure result. -/
theorem generateEmbedding_retry_witness :
    generateEmbedding true (fun _ a => if a = 3 then Except.ok [] else Except.error []) ('h' :: []) =
      ⟨Except.ok [], 3, [1000, 2000]⟩ ∧
    (generateEmbedding true (fun _ _ => Except.error []) ('h' :: [])).calls = 3 :=
  ⟨(generateEmbedding_retry _ _ [] [] (by decide) rfl rfl).1 [] rfl,
   ((generateEmbedding_retry (fun _ _ => Except.error []) _ [] [] (by decide) rfl rfl).2
      [] rfl).2⟩

/-! ### C10 -/

theorem mapAll_ok (gen : Str → Except Str (List ℚ)) (f : Str → List ℚ) :
    ∀ l : List Str, (∀ t ∈ l, gen t = Except.ok (f t)) → mapAll gen l = Except.ok (l.map f) := by
  intro l
  induction l with
  | nil => intro _; rfl
  | cons t ts ih =>
    intro h
    have ht := h t (List.mem_cons_self t ts)
    have hts := ih (fun x hx => h x (List.mem_cons_of_mem _ hx))
    simp [mapAll, ht, hts]

theorem runBatches_ok (gen : Str → Except Str (List ℚ)) (f : Str → List ℚ) :
    ∀ (fuel : ℕ) (l : List Str), l.length ≤ fuel →
      (∀ t ∈ l, gen t = Except.ok (f t)) →
      runBatches gen (toBatchesAux fuel l) = (Except.ok (l.map f), l.length) := by
  intro fuel
  induction fuel with
  | zero =>
    intro l hl _
    have hnil : l = [] := List.length_eq_zero.mp (Nat.le_zero.mp hl)
    subst hnil; rfl
  | succ fuel ih =>
    intro l hl h
    cases l with
    | nil => rfl
    | cons x xs =>
      simp only [toBatchesAux, runBatches]
      rw [mapAll_ok gen f _ (fun t ht => h t (List.mem_of_mem_take ht))]
      rw [ih ((x :: xs).drop 10)
        (by rw [List.length_drop]; simp only [List.length_cons] at hl ⊢; omega)
        (fun t ht => h t (List.mem_of_mem_drop ht))]
      simp only [Except.map]
      rw [← List.map_append, List.take_append_drop]
      rw [List.length_take, List.length_drop]
      simp only [List.length_cons]
      congr 1
      omega

/-- C10: when every per-text call succeeds, generateBatchEmbeddings on a
non-empty list returns exactly one embedding per input text, in input order,
regardless of the sub-batch partition of size ten; the empty list is rejected
before any provider call. -/
theorem generateBatchEmbeddings_spec (gen : Str → Except Str (List ℚ)) (f : Str → List ℚ)
    (texts : List Str) :
    (texts ≠ [] → (∀ t ∈ texts, gen t = Except.ok (f t)) →
      generateBatchEmbeddings gen texts = (Except.ok (texts.map f), texts.length)) ∧
    generateBatchEmbeddings gen [] =
      (Except.error ("Texts must be a non-empty array".toList), 0) := by
  constructor
  · intro hne h
    simp only [generateBatchEmbeddings]
    rw [if_neg (by simp [hne])]
    exact runBatches_ok gen f texts.length texts le_rfl h
  · rfl

/-- C10 witness: eleven texts, spanning two sub-batches, yield eleven
embeddings in order. -/
theorem generateBatchEmbeddings_spec_witness :
    generateBatchEmbeddings (fun _ => Except.ok []) (List.replicate 11 ('a' :: [])) =
      (Except.ok (List.replicate 11 []), 11) := by
  have h := (generateBatchEmbeddings_spec (fun _ => Except.ok [])
    (fun _ => []) (List.replicate 11 ('a' :: []))).1 (by decide) (fun t _ => rfl)
  simpa using h

/-! ### Context assembly lemmas -/

theorem contextLoop_spec (cw : ℕ) (fd : Str → Str) :
    ∀ (rest : List RChunk) (curLen : ℕ),
      (∃ n, (contextLoop cw fd curLen rest).2 = rest.take n) ∧
      (contextLoop cw fd curLen rest).1 =
        (((contextLoop cw fd curLen rest).2).map (renderChunk fd)).flatten ∧
      (curLen ≤ cw → curLen + (contextLoop cw fd curLen rest).1.length ≤ cw) := by
  intro rest
  induction rest with
  | nil =>
    intro curLen
    exact ⟨⟨0, rfl⟩, rfl, fun h => by simpa using h⟩
  | cons c cs ih =>
    intro curLen
    simp only [contextLoop]
    by_cases hcw : cw < curLen + (renderChunk fd c).length
    · rw [if_pos hcw]
      exact ⟨⟨0, rfl⟩, rfl, fun h => by simpa using h⟩
    · rw [if_neg hcw]
      obtain ⟨⟨n, hn⟩, htext, hlen⟩ := ih (curLen + (renderChunk fd c).length)
      refine ⟨⟨n + 1, ?_⟩, ?_, ?_⟩
      · simp [List.take_succ_cons, hn]
      · simp [htext]
      · intro h
        have hrec := hlen (by omega)
        simp only [List.length_append]
        omega

/-! ### C4 -/

/-- C4 counterexample: with a 4000-character query and no chunks at all, the
assembled context text is 4045 characters, exceeding the 4000-character
budget, because the query preamble is always included. -/
theorem prepareContext_budget_cex :
    ¬ ((prepareContext defaultRAGConfig (fun s => s) [] (List.replicate 4000 'a')).text.length ≤
        defaultRAGConfig.contextWindow) := by
  intro h
  have hpre : (queryContext (List.replicate 4000 'a')).length = 4045 := by
    simp only [queryContext, List.length_append, List.length_replicate]
    have h1 : ("User Question: ".toList).length = 15 := rfl
    have h2 : ("\n\nRelevant News Information:\n\n".toList).length = 30 := rfl
    omega
  have htext : (prepareContext defaultRAGConfig (fun s => s) [] (List.replicate 4000 'a')).text =
      queryContext (List.replicate 4000 'a') ++ [] := rfl
  rw [htext, List.length_append, hpre] at h
  have hcw : defaultRAGConfig.contextWindow = 4000 := rfl
  simp only [List.length_nil] at h
  omega

/-- C4 amended: the assembled context is the query preamble followed by whole
rendered chunk blocks, taken as a prefix of the score-descending order (so a
chunk that would push the running total over the budget is excluded whole,
along with everything after it); whenever the preamble itself fits the budget,
the assembled text never exceeds the budget. An oversized query preamble is
still included, which is the only way the budget can be exceeded. -/
theorem prepareContext_budget (cfg : RAGConfig) (fd : Str → Str) (chunks : List RChunk)
    (q : Str) :
    (prepareContext cfg fd chunks q).text =
      queryContext q ++ (((prepareContext cfg fd chunks q).chunks).map (renderChunk fd)).flatten ∧
    (∃ n, (prepareContext cfg fd chunks q).chunks = (sortChunks chunks).take n) ∧
    List.Sorted scoreGe (prepareContext cfg fd chunks q).chunks ∧
    ((queryContext q).length ≤ cfg.contextWindow →
      (prepareContext cfg fd chunks q).text.length ≤ cfg.contextWindow) := by
  obtain ⟨⟨n, hn⟩, htext, hlen⟩ :=
    contextLoop_spec cfg.contextWindow fd (sortChunks chunks) (queryContext q).length
  have hchunks : (prepareContext cfg fd chunks q).chunks =
      (contextLoop cfg.contextWindow fd (queryContext q).length (sortChunks chunks)).2 := rfl
  have htext2 : (prepareContext cfg fd chunks q).text =
      queryContext q ++
        (contextLoop cfg.contextWindow fd (queryContext q).length (sortChunks chunks)).1 := rfl
  refine ⟨?_, ⟨n, hchunks ▸ hn⟩, ?_, ?_⟩
  · rw [htext2, htext, hchunks]
  · rw [hchunks, hn]
    exact List.Pairwise.sublist (List.take_sublist n _)
      (List.sorted_insertionSort scoreGe chunks)
  · intro h
    rw [htext2, List.length_append]
    have := hlen h
    omega

/-- C4 witness: with a one-character query the preamble fits, so the context
stays within the 4000-character budget. -/
theorem prepareContext_budget_witness :
    (prepareContext defaultRAGConfig (fun s => s) [] ('q' :: [])).text.length ≤
      defaultRAGConfig.contextWindow :=
  (prepareContext_budget defaultRAGConfig (fun s => s) [] ('q' :: [])).2.2.2 (by decide)

/-! ### C5 -/

/-- C5: every chunk in the used set of the assembled context has similarity
score at or above the threshold; no sub-threshold chunk is ever rendered,
because the context is assembled from the threshold-filtered list. -/
theorem contextChunks_above_threshold (cfg : RAGConfig) (fd : Str → Str) (th : ℚ)
    (sr : List RChunk) (q : Str) (c : RChunk)
    (hc : c ∈ (prepareContext cfg fd (relevantChunks th sr) q).chunks) : th ≤ c.score := by
  obtain ⟨⟨n, hn⟩, -, -⟩ :=
    contextLoop_spec cfg.contextWindow fd (sortChunks (relevantChunks th sr))
      (queryContext q).length
  have hchunks : (prepareContext cfg fd (relevantChunks th sr) q).chunks =
      (contextLoop cfg.contextWindow fd (queryContext q).length
        (sortChunks (relevantChunks th sr))).2 := rfl
  rw [hchunks, hn] at hc
  have hsorted : c ∈ sortChunks (relevantChunks th sr) := List.mem_of_mem_take hc
  have hrel : c ∈ relevantChunks th sr :=
    (List.perm_insertionSort scoreGe (relevantChunks th sr)).mem_iff.mp hsorted
  have := (List.mem_filter.mp hrel).2
  exact of_decide_eq_true this

/-- C5 witness: a 0.9-scoring chunk used in the context is above the 0.7
threshold. -/
theorem contextChunks_above_threshold_witness :
    mkRat 7 10 ≤ (mkRat 9 10 : ℚ) :=
  contextChunks_above_threshold defaultRAGConfig (fun s => s) (mkRat 7 10)
    [⟨['t'], ['T'], ['u'], ['s'], ['d'], mkRat 9 10⟩] ('q' :: [])
    ⟨['t'], ['T'], ['u'], ['s'], ['d'], mkRat 9 10⟩ (by decide)

/-! ### C3 -/

/-- C3: when the vector search returns results but none reaches the similarity
threshold, processQuery returns the fixed fallback text with empty citations
and chunksUsed zero in the metadata, and the trace contains no call to the
generation service. -/
theorem processQuery_no_match (cfg : RAGConfig) (db : Db) (gen : Str → Str → Except Str Str)
    (fd : Str → Str) (elapsed : ℕ) (sr : List RChunk) (q sid : Str) (opts : QueryOptions)
    (hfound : sr ≠ [])
    (hnone : relevantChunks (orFalsy opts.similarityThreshold cfg.similarityThreshold) sr = []) :
    processQuery cfg db gen fd elapsed sr q sid opts =
      (Except.ok ⟨fallbackResponse, [], ⟨elapsed, sr.length, 0, 0⟩⟩, []) ∧
    ((processQuery cfg db gen fd elapsed sr q sid opts).2.filter isGenCall).length = 0 := by
  have hmain : processQuery cfg db gen fd elapsed sr q sid opts =
      (Except.ok ⟨fallbackResponse, [], ⟨elapsed, sr.length, 0, 0⟩⟩, []) := by
    simp only [processQuery, hnone, List.isEmpty_nil, if_pos]
  exact ⟨hmain, by rw [hmain]; rfl⟩

/-- C3 witness: a single result scoring 0.5 against the default 0.7 threshold
produces the fallback result with no generation call. -/
theorem processQuery_no_match_witness :
    processQuery defaultRAGConfig ⟨true, fun _ _ _ _ _ => Except.ok ()⟩
        (fun _ _ => Except.ok ('r' :: [])) (fun s => s) 0
        [⟨['t'], ['T'], ['u'], ['s'], ['d'], mkRat 1 2⟩] ('q' :: []) ('s' :: [])
        ⟨none, none⟩ =
      (Except.ok ⟨fallbackResponse, [], ⟨0, 1, 0, 0⟩⟩, []) :=
  (processQuery_no_match defaultRAGConfig ⟨true, fun _ _ _ _ _ => Except.ok ()⟩
    (fun _ _ => Except.ok ('r' :: [])) (fun s => s) 0
    [⟨['t'], ['T'], ['u'], ['s'], ['d'], mkRat 1 2⟩] ('q' :: []) ('s' :: [])
    ⟨none, none⟩ (by decide) (by decide)).1

/-! ### C2 -/

theorem logInteraction_sink_indep (conn : Bool)
    (sA sB : Str → Str → Str → List Citation → LogMetadata → Except Str Unit)
    (sid q resp : Str) (srcs : List Citation) (md : LogMetadata) :
    logInteraction ⟨conn, sA⟩ sid q resp srcs md = logInteraction ⟨conn, sB⟩ sid q resp srcs md := by
  simp only [logInteraction]
  cases conn
  · rfl
  · simp only [if_pos]
    cases sA sid q resp srcs md <;> cases sB sid q resp srcs md <;> rfl

/-- C2 counterexample: a completed no-match query is never submitted to the
interaction log: with a connected database and an accepting sink, the query
completes with the fallback result while the effect trace is empty, so no log
submission happens, contradicting the claim that every completed query,
including the no-match short-circuit, is logged. -/
theorem processQuery_log_cex :
    processQuery defaultRAGConfig ⟨true, fun _ _ _ _ _ => Except.ok ()⟩
        (fun _ _ => Except.ok ('r' :: [])) (fun s => s) 0
        [⟨['t'], ['T'], ['u'], ['s'], ['d'], mkRat 49 100⟩] ('q' :: []) ('s' :: [])
        ⟨none, none⟩ =
      (Except.ok ⟨fallbackResponse, [], ⟨0, 1, 0, 0⟩⟩, []) := rfl

/-- C2 amended: every query that passes the threshold filter and generates
successfully is submitted to the interaction log with session id, query,
response, citations and metrics, provided the database is connected; the
no-match short-circuit returns without logging; and the sink outcome (success
or failure) never changes anything the caller or the trace observes. -/
theorem processQuery_logging (cfg : RAGConfig) (conn : Bool)
    (sink : Str → Str → Str → List Citation → LogMetadata → Except Str Unit)
    (gen : Str → Str → Except Str Str) (fd : Str → Str) (elapsed : ℕ)
    (sr : List RChunk) (q sid : Str) (opts : QueryOptions) (resp : Str)
    (hrel : relevantChunks (orFalsy opts.similarityThreshold cfg.similarityThreshold) sr ≠ [])
    (hgen : gen q (prepareContext cfg fd
        (relevantChunks (orFalsy opts.similarityThreshold cfg.similarityThreshold) sr) q).text =
      Except.ok resp) :
    (processQuery cfg ⟨true, sink⟩ gen fd elapsed sr q sid opts =
      (Except.ok ⟨resp,
          prepareSources cfg (sortChunks
            (relevantChunks (orFalsy opts.similarityThreshold cfg.similarityThreshold) sr)),
          ⟨elapsed, sr.length,
            (relevantChunks (orFalsy opts.similarityThreshold cfg.similarityThreshold) sr).length,
            (prepareContext cfg fd
              (relevantChunks (orFalsy opts.similarityThreshold cfg.similarityThreshold) sr)
              q).text.length⟩⟩,
        [RAGEvent.genCall q (prepareContext cfg fd
            (relevantChunks (orFalsy opts.similarityThreshold cfg.similarityThreshold) sr) q).text,
          RAGEvent.logSubmit sid q resp
            (prepareSources cfg (sortChunks
              (relevantChunks (orFalsy opts.similarityThreshold cfg.similarityThreshold) sr)))
            ⟨elapsed, sr.length,
              (relevantChunks (orFalsy opts.similarityThreshold cfg.similarityThreshold) sr).length,
              (prepareContext cfg fd
                (relevantChunks (orFalsy opts.similarityThreshold cfg.similarityThreshold) sr)
                q).text.length⟩])) ∧
    (∀ sinkB, processQuery cfg ⟨conn, sink⟩ gen fd elapsed sr q sid opts =
      processQuery cfg ⟨conn, sinkB⟩ gen fd elapsed sr q sid opts) := by
  constructor
  · have hne : (relevantChunks (orFalsy opts.similarityThreshold cfg.similarityThreshold)
        sr).isEmpty = false := by
      cases hc : relevantChunks (orFalsy opts.similarityThreshold cfg.similarityThreshold) sr
      · exact absurd hc hrel
      · rfl
    simp only [processQuery, hne, Bool.false_eq_true, if_neg, hgen, logInteraction, if_pos]
    cases sink sid q resp (prepareSources cfg (sortChunks
      (relevantChunks (orFalsy opts.similarityThreshold cfg.similarityThreshold) sr)))
      ⟨elapsed, sr.length,
        (relevantChunks (orFalsy opts.similarityThreshold cfg.similarityThreshold) sr).length,
        (prepareContext cfg fd
          (relevantChunks (orFalsy opts.similarityThreshold cfg.similarityThreshold) sr)
          q).text.length⟩ <;> rfl
  · intro sinkB
    simp only [processQuery]
    split
    · rfl
    · split
      · rfl
      · rw [logInteraction_sink_indep]

/-- C2 witness: with a connected database, an above-threshold chunk and a
successful generation, the trace contains the generation call followed by the
log submission, and swapping the sink for a failing one changes nothing. -/
theorem processQuery_logging_witness :
    ((processQuery defaultRAGConfig ⟨true, fun _ _ _ _ _ => Except.ok ()⟩
        (fun _ _ => Except.ok ('r' :: [])) (fun s => s) 0
        [⟨['t'], ['T'], ['u'], ['s'], ['d'], mkRat 9 10⟩] ('q' :: []) ('s' :: [])
        ⟨none, none⟩).2.filter isLogSubmit).length = 1 ∧
    processQuery defaultRAGConfig ⟨true, fun _ _ _ _ _ => Except.ok ()⟩
        (fun _ _ => Except.ok ('r' :: [])) (fun s => s) 0
        [⟨['t'], ['T'], ['u'], ['s'], ['d'], mkRat 9 10⟩] ('q' :: []) ('s' :: [])
        ⟨none, none⟩ =
      processQuery defaultRAGConfig ⟨true, fun _ _ _ _ _ => Except.error []⟩
        (fun _ _ => Except.ok ('r' :: [])) (fun s => s) 0
        [⟨['t'], ['T'], ['u'], ['s'], ['d'], mkRat 9 10⟩] ('q' :: []) ('s' :: [])
        ⟨none, none⟩ := by
  constructor
  · rw [(processQuery_logging defaultRAGConfig true (fun _ _ _ _ _ => Except.ok ())
      (fun _ _ => Except.ok ('r' :: [])) (fun s => s) 0
      [⟨['t'], ['T'], ['u'], ['s'], ['d'], mkRat 9 10⟩] ('q' :: []) ('s' :: [])
      ⟨none, none⟩ ('r' :: []) (by decide) rfl).1]
    rfl
  · exact (processQuery_logging defaultRAGConfig true (fun _ _ _ _ _ => Except.ok ())
      (fun _ _ => Except.ok ('r' :: [])) (fun s => s) 0
      [⟨['t'], ['T'], ['u'], ['s'], ['d'], mkRat 9 10⟩] ('q' :: []) ('s' :: [])
      ⟨none, none⟩ ('r' :: []) (by decide) rfl).2 (fun _ _ _ _ _ => Except.error [])

/-! ### C1 -/

theorem mem_dedupByUrl_not_seen : ∀ (l : List RChunk) (seen : List Str) (e : Citation),
    e ∈ dedupByUrl seen l → e.url ∉ seen := by
  intro l
  induction l with
  | nil => intro seen e he; simp [dedupByUrl] at he
  | cons c cs ih =>
    intro seen e he
    simp only [dedupByUrl] at he
    by_cases hseen : c.articleUrl ∈ seen
    · rw [if_pos hseen] at he
      exact ih seen e he
    · rw [if_neg hseen] at he
      rcases List.mem_cons.mp he with h | h
      · subst h
        exact hseen
      · have hnot := ih _ e h
        exact fun hs => hnot (List.mem_cons_of_mem _ hs)

theorem dedupByUrl_score_max : ∀ (l : List RChunk) (seen : List Str),
    List.Sorted scoreGe l →
    ∀ e ∈ dedupByUrl seen l,
      (∃ c ∈ l, c.articleUrl = e.url ∧ c.score = e.relevanceScore) ∧
      (∀ c ∈ l, c.articleUrl = e.url → c.score ≤ e.relevanceScore) := by
  intro l
  induction l with
  | nil => intro seen _ e he; simp [dedupByUrl] at he
  | cons c cs ih =>
    intro seen hs e he
    have hcs : List.Sorted scoreGe cs := hs.of_cons
    have hhead : ∀ b ∈ cs, scoreGe c b := List.rel_of_sorted_cons hs
    simp only [dedupByUrl] at he
    by_cases hseen : c.articleUrl ∈ seen
    · rw [if_pos hseen] at he
      obtain ⟨⟨d, hd, hdu, hds⟩, hmax⟩ := ih seen hcs e he
      have hne : c.articleUrl ≠ e.url :=
        fun hc => (mem_dedupByUrl_not_seen cs seen e he) (hc ▸ hseen)
      refine ⟨⟨d, List.mem_cons_of_mem _ hd, hdu, hds⟩, ?_⟩
      intro b hb hbu
      rcases List.mem_cons.mp hb with rfl | hb'
      · exact absurd hbu hne
      · exact hmax b hb' hbu
    · rw [if_neg hseen] at he
      rcases List.mem_cons.mp he with rfl | he'
      · refine ⟨⟨c, List.mem_cons_self c cs, rfl, rfl⟩, ?_⟩
        intro b hb hbu
        rcases List.mem_cons.mp hb with rfl | hb'
        · exact le_refl _
        · exact hhead b hb'
      · obtain ⟨⟨d, hd, hdu, hds⟩, hmax⟩ := ih (c.articleUrl :: seen) hcs e he'
        have hne : c.articleUrl ≠ e.url := by
          have hnot := mem_dedupByUrl_not_seen cs (c.articleUrl :: seen) e he'
          exact fun hc => hnot (hc ▸ List.mem_cons_self c.articleUrl seen)
        refine ⟨⟨d, List.mem_cons_of_mem _ hd, hdu, hds⟩, ?_⟩
        intro b hb hbu
        rcases List.mem_cons.mp hb with rfl | hb'
        · exact absurd hbu hne
        · exact hmax b hb' hbu

theorem dedupByUrl_urls_nodup : ∀ (l : List RChunk) (seen : List Str),
    ((dedupByUrl seen l).map Citation.url).Nodup := by
  intro l
  induction l with
  | nil => intro seen; simp [dedupByUrl]
  | cons c cs ih =>
    intro seen
    simp only [dedupByUrl]
    by_cases hseen : c.articleUrl ∈ seen
    · rw [if_pos hseen]
      exact ih seen
    · rw [if_neg hseen]
      simp only [List.map_cons, List.nodup_cons]
      refine ⟨?_, ih _⟩
      intro hmem
      obtain ⟨e, he, heq⟩ := List.mem_map.mp hmem
      exact (mem_dedupByUrl_not_seen cs _ e he) (heq ▸ List.mem_cons_self c.articleUrl seen)

/-- C1 amended: the citation list is built by grouping all above-threshold
retrieved chunks, not only those actually packed into the context: it has at
most one entry per distinct article URL, each entry's score equals the maximum
score among that article's above-threshold chunks (the list prepareSources
receives is sorted descending, so the first chunk per URL carries the maximum),
the list is sorted by score descending, and its length is at most the
configured cap. -/
theorem prepareSources_citations (cfg : RAGConfig) (th : ℚ) (sr : List RChunk) :
    ((prepareSources cfg (sortChunks (relevantChunks th sr))).map Citation.url).Nodup ∧
    List.Sorted citeGe (prepareSources cfg (sortChunks (relevantChunks th sr))) ∧
    (prepareSources cfg (sortChunks (relevantChunks th sr))).length ≤ cfg.maxSources ∧
    ∀ e ∈ prepareSources cfg (sortChunks (relevantChunks th sr)),
      (∃ c ∈ relevantChunks th sr, c.articleUrl = e.url ∧ c.score = e.relevanceScore) ∧
      (∀ c ∈ relevantChunks th sr, c.articleUrl = e.url → c.score ≤ e.relevanceScore) := by
  have hperm := List.perm_insertionSort citeGe (dedupByUrl [] (sortChunks (relevantChunks th sr)))
  have hsortedchunks : List.Sorted scoreGe (sortChunks (relevantChunks th sr)) :=
    List.sorted_insertionSort scoreGe (relevantChunks th sr)
  have hchunksperm := List.perm_insertionSort scoreGe (relevantChunks th sr)
  refine ⟨?_, ?_, ?_, ?_⟩
  · have hd : ((dedupByUrl [] (sortChunks (relevantChunks th sr))).map Citation.url).Nodup :=
      dedupByUrl_urls_nodup _ []
    have hs : ((List.insertionSort citeGe
        (dedupByUrl [] (sortChunks (relevantChunks th sr)))).map Citation.url).Nodup :=
      ((hperm.map Citation.url).nodup_iff).mpr hd
    have hsub : ((prepareSources cfg (sortChunks (relevantChunks th sr))).map Citation.url).Sublist
        ((List.insertionSort citeGe
          (dedupByUrl [] (sortChunks (relevantChunks th sr)))).map Citation.url) :=
      List.Sublist.map Citation.url (List.take_sublist _ _)
    exact hs.sublist hsub
  · exact List.Pairwise.sublist (List.take_sublist _ _)
      (List.sorted_insertionSort citeGe (dedupByUrl [] (sortChunks (relevantChunks th sr))))
  · exact List.length_take_le _ _
  · intro e he
    have hmem : e ∈ dedupByUrl [] (sortChunks (relevantChunks th sr)) :=
      hperm.mem_iff.mp (List.mem_of_mem_take he)
    obtain ⟨⟨c, hc, hcu, hcs⟩, hmax⟩ :=
      dedupByUrl_score_max (sortChunks (relevantChunks th sr)) [] hsortedchunks e hmem
    refine ⟨⟨c, hchunksperm.mem_iff.mp hc, hcu, hcs⟩, ?_⟩
    intro b hb hbu
    exact hmax b (hchunksperm.mem_iff.mpr hb) hbu

theorem contextLoop_break (cw : ℕ) (fd : Str → Str) (curLen : ℕ) (c : RChunk)
    (cs : List RChunk) (h : cw < curLen + (renderChunk fd c).length) :
    contextLoop cw fd curLen (c :: cs) = ([], []) := by
  simp only [contextLoop]
  rw [if_pos h]

theorem prepareContext_chunks_eq (cfg : RAGConfig) (fd : Str → Str) (chunks : List RChunk)
    (q : Str) :
    (prepareContext cfg fd chunks q).chunks =
      (contextLoop cfg.contextWindow fd (queryContext q).length (sortChunks chunks)).2 := rfl

/-- C1 counterexample: a single above-threshold chunk whose rendered block is
too large for the context window is used nowhere in the assembled context, yet
it still produces a citation, so the citation list is not built from the used
chunks: its only entry has no used chunk with its article URL. -/
theorem prepareSources_used_chunks_cex :
    ¬ (∀ e ∈ prepareSources defaultRAGConfig
          (sortChunks (relevantChunks defaultRAGConfig.similarityThreshold
            [⟨List.replicate 4000 'a', ['T'], ['u'], ['s'], ['d'], mkRat 9 10⟩])),
        ∃ c ∈ (prepareContext defaultRAGConfig (fun s => s)
            (relevantChunks defaultRAGConfig.similarityThreshold
              [⟨List.replicate 4000 'a', ['T'], ['u'], ['s'], ['d'], mkRat 9 10⟩])
            ('q' :: [])).chunks,
          c.articleUrl = e.url) := by
  intro h
  have hsrc : prepareSources defaultRAGConfig
      (sortChunks (relevantChunks defaultRAGConfig.similarityThreshold
        [⟨List.replicate 4000 'a', ['T'], ['u'], ['s'], ['d'], mkRat 9 10⟩])) =
      [⟨['T'], ['u'], ['s'], ['d'], mkRat 9 10⟩] := rfl
  have hrlen : (renderChunk (fun s => s)
      (⟨List.replicate 4000 'a', ['T'], ['u'], ['s'], ['d'], mkRat 9 10⟩ : RChunk)).length =
      4038 := by
    simp only [renderChunk, List.length_append, List.length_replicate]
    have h1 : ("Source: ".toList).length = 8 := rfl
    have h2 : (" - ".toList).length = 3 := rfl
    have h3 : ("\nPublished: ".toList).length = 12 := rfl
    have h4 : ("\nContent: ".toList).length = 10 := rfl
    have h5 : ("\n\n".toList).length = 2 := rfl
    have h6 : (['s'] : Str).length = 1 := rfl
    have h7 : (['T'] : Str).length = 1 := rfl
    have h8 : (['d'] : Str).length = 1 := rfl
    omega
  have hlist : sortChunks (relevantChunks defaultRAGConfig.similarityThreshold
      [⟨List.replicate 4000 'a', ['T'], ['u'], ['s'], ['d'], mkRat 9 10⟩]) =
      [⟨List.replicate 4000 'a', ['T'], ['u'], ['s'], ['d'], mkRat 9 10⟩] := rfl
  have hcond : defaultRAGConfig.contextWindow <
      (queryContext ('q' :: [])).length +
        (renderChunk (fun s => s)
          (⟨List.replicate 4000 'a', ['T'], ['u'], ['s'], ['d'], mkRat 9 10⟩ : RChunk)).length := by
    have hq : (queryContext ('q' :: [])).length = 46 := rfl
    have hcw : defaultRAGConfig.contextWindow = 4000 := rfl
    rw [hq, hcw, hrlen]
    omega
  have hused : (prepareContext defaultRAGConfig (fun s => s)
      (relevantChunks defaultRAGConfig.similarityThreshold
        [⟨List.replicate 4000 'a', ['T'], ['u'], ['s'], ['d'], mkRat 9 10⟩])
      ('q' :: [])).chunks = [] := by
    rw [prepareContext_chunks_eq, hlist, contextLoop_break _ _ _ _ _ hcond]
  obtain ⟨c, hc, -⟩ := h ⟨['T'], ['u'], ['s'], ['d'], mkRat 9 10⟩
    (hsrc ▸ List.mem_cons_self _ _)
  rw [hused] at hc
  exact absurd hc (List.not_mem_nil c)

/-! ### C8 -/

def c8Sentence : Str := List.replicate 300 'a'

/-- Four 300-character sentences, each ending in a period. -/
def c8Text : Str :=
  (c8Sentence ++ ['.']) ++ (c8Sentence ++ ['.']) ++ (c8Sentence ++ ['.']) ++ (c8Sentence ++ ['.'])

def c8Article : Article := ⟨[], [], [], [], [], [], []⟩

/-- C8 counterexample: on four 300-character sentences with the default
maximum chunk size 500, the chunker emits a 905-character chunk — the
two-sentence overlap seed plus a full extra sentence — exceeding maxChunkSize
plus one trailing sentence, which on this input is at most 500 + 300 + 2. -/
theorem chunkText_length_cex :
    ¬ (∀ c ∈ chunkText c8Text c8Article 500 50,
        c.text.length ≤ 500 + maxSentLen c8Text + 2) := by
  intro h
  have hm : ∀ n ∈ (chunkText c8Text c8Article 500 50).map (fun c => c.text.length),
      n ≤ 500 + maxSentLen c8Text + 2 := by
    intro n hn
    obtain ⟨c, hc, rfl⟩ := List.mem_map.mp hn
    exact h c hc
  have hmap : (chunkText c8Text c8Article 500 50).map (fun c => c.text.length) =
      [301, 603, 905, 905] := by decide
  have hms : maxSentLen c8Text = 300 := by decide
  rw [hmap] at hm
  have h905 := hm 905 (by simp)
  rw [hms] at h905
  omega

theorem jsTrim_length_le (l : Str) : (jsTrim l).length ≤ l.length := by
  unfold jsTrim
  have h1 := (@List.dropWhile_sublist _ l isWS).length_le
  have h2 := (@List.dropWhile_sublist _ (l.dropWhile isWS).reverse isWS).length_le
  simp only [List.length_reverse] at h1 h2 ⊢
  omega

theorem le_foldr_max : ∀ (ls : List Str) (s : Str), s ∈ ls →
    s.length ≤ ls.foldr (fun x m => max x.length m) 0 := by
  intro ls
  induction ls with
  | nil => intro s hs; simp at hs
  | cons a as ih =>
    intro s hs
    rcases List.mem_cons.mp hs with rfl | hs₂
    · simp only [List.foldr]
      exact le_max_left _ _
    · exact le_trans (ih s hs₂) (by simp only [List.foldr]; exact le_max_right _ _)

theorem overlapSeed_length_le (p : List Str) (S : ℕ) (hp : ∀ s ∈ p, s.length ≤ S)
    (hlen : p.length ≤ 2) : (overlapSeed p).length ≤ 2 * S + 4 := by
  cases p with
  | nil => simp [overlapSeed, joinSep]
  | cons a p₁ =>
    cases p₁ with
    | nil =>
      have ha := hp a (List.mem_cons_self a [])
      simp only [overlapSeed, joinSep, dotSpace, List.isEmpty_cons, Bool.false_eq_true,
        if_false, List.length_append, List.length_cons, List.length_nil]
      omega
    | cons b p₂ =>
      cases p₂ with
      | nil =>
        have ha := hp a (List.mem_cons_self _ _)
        have hb := hp b (List.mem_cons_of_mem _ (List.mem_cons_self _ _))
        simp only [overlapSeed, joinSep, dotSpace, List.isEmpty_cons, Bool.false_eq_true,
          if_false, List.length_append, List.length_cons, List.length_nil]
        omega
      | cons c p₃ =>
        simp only [List.length_cons] at hlen
        omega

theorem push2_length_le (p : List Str) (s : Str) : (push2 p s).length ≤ 2 := by
  unfold push2
  cases p with
  | nil => simp
  | cons a q => cases q <;> simp

theorem push2_mem (p : List Str) (s x : Str) (hx : x ∈ push2 p s) : x ∈ p ∨ x = s := by
  unfold push2 at hx
  cases p with
  | nil =>
    simp only [List.mem_singleton] at hx
    exact Or.inr hx
  | cons a q =>
    cases q with
    | nil =>
      rcases List.mem_cons.mp hx with rfl | hx₂
      · exact Or.inl (List.mem_cons_self _ _)
      · simp only [List.mem_singleton] at hx₂
        exact Or.inr hx₂
    | cons b r =>
      rcases List.mem_cons.mp hx with rfl | hx₂
      · exact Or.inl (List.mem_cons_of_mem _ (List.mem_cons_self _ _))
      · simp only [List.mem_singleton] at hx₂
        exact Or.inr hx₂

theorem chunkLoop_length_bound (art : Article) (maxCS S : ℕ) :
    ∀ (rest : List Str) (buf : Str) (prev2 : List Str) (idx : ℕ),
      (∀ s ∈ rest, s.length ≤ S) →
      (∀ s ∈ prev2, s.length ≤ S) →
      prev2.length ≤ 2 →
      buf.length ≤ max (maxCS + 1) (3 * S + 6) →
      ∀ c ∈ chunkLoop art maxCS buf prev2 idx rest,
        c.text.length ≤ max (maxCS + 1) (3 * S + 6) := by
  intro rest
  induction rest with
  | nil =>
    intro buf prev2 idx hrest hprev hp2 hbuf c hc
    simp only [chunkLoop] at hc
    split at hc
    · simp only [List.mem_singleton] at hc
      subst hc
      exact le_trans (le_trans (jsTrim_length_le buf) hbuf) le_rfl
    · simp at hc
  | cons s rest ih =>
    intro buf prev2 idx hrest hprev hp2 hbuf c hc
    have hs : s.length ≤ S := hrest s (List.mem_cons_self _ _)
    have hrest₂ : ∀ x ∈ rest, x.length ≤ S := fun x hx => hrest x (List.mem_cons_of_mem _ hx)
    have hprev₂ : ∀ x ∈ push2 prev2 s, x.length ≤ S := by
      intro x hx
      rcases push2_mem prev2 s x hx with h | rfl
      · exact hprev x h
      · exact hs
    simp only [chunkLoop] at hc
    split at hc
    case isTrue hcond =>
      rcases List.mem_cons.mp hc with rfl | hc₂
      · exact le_trans (jsTrim_length_le buf) hbuf
      · refine ih _ _ _ hrest₂ hprev₂ (push2_length_le prev2 s) ?_ c hc₂
        have hseed := overlapSeed_length_le prev2 S hprev hp2
        have htrim := jsTrim_length_le s
        simp only [List.length_append, List.length_cons, List.length_nil]
        have hbound : (overlapSeed prev2).length + ((jsTrim s).length + 1) + 1 ≤ 3 * S + 6 := by
          omega
        exact le_trans hbound (le_max_right _ _)
    case isFalse hcond =>
      refine ih _ _ _ hrest₂ hprev₂ (push2_length_le prev2 s) ?_ c hc
      have htrim := jsTrim_length_le s
      rcases Decidable.not_and_iff_or_not.mp hcond with h | h
      · have hfit : buf.length + ((jsTrim s).length + 1) ≤ maxCS := by
          simp only [List.length_append, List.length_cons, List.length_nil] at h
          omega
        simp only [List.length_append, List.length_cons, List.length_nil]
        have : buf.length + ((jsTrim s).length + 1) + 1 ≤ maxCS + 1 := by omega
        exact le_trans this (le_max_left _ _)
      · have hzero : buf.length = 0 := by omega
        simp only [List.length_append, List.length_cons, List.length_nil]
        have : buf.length + ((jsTrim s).length + 1) + 1 ≤ 3 * S + 6 := by omega
        exact le_trans this (le_max_right _ _)

/-- C8 amended: a chunk can exceed maxChunkSize plus one trailing sentence,
because the two-sentence overlap seed plus the trailing sentence can itself
exceed the maximum; the guaranteed bound is maxChunkSize + 1 or three
sentences plus separators, whichever is larger: every emitted chunk's text
length is at most max(maxChunkSize + 1, 3 * longest-sentence-length + 6). -/
theorem chunkText_length_bound (text : Str) (art : Article) (maxCS overlap : ℕ) :
    ∀ c ∈ chunkText text art maxCS overlap,
      c.text.length ≤ max (maxCS + 1) (3 * maxSentLen text + 6) := by
  intro c hc
  unfold chunkText at hc
  split at hc
  · simp at hc
  · exact chunkLoop_length_bound art maxCS (maxSentLen text) _ [] [] 0
      (fun s hs => le_foldr_max _ s hs) (by simp) (by simp) (by simp) c hc

/-- C8 witness: a single 120-character sentence yields one 121-character
chunk, within the amended bound. -/
theorem chunkText_length_bound_witness :
    (mkChunk c8Article 0 (List.replicate 120 'a' ++ ['.'])).text.length ≤
      max (500 + 1) (3 * maxSentLen (List.replicate 120 'a' ++ ['.']) + 6) :=
  chunkText_length_bound (List.replicate 120 'a' ++ ['.']) c8Article 500 50
    (mkChunk c8Article 0 (List.replicate 120 'a' ++ ['.'])) (by decide)

/-- C1 witness: on a concrete above-threshold chunk list the citation property
holds; in particular the single citation carries the chunk's score and URL. -/
theorem prepareSources_citations_witness :
    ∃ c ∈ relevantChunks (mkRat 7 10) [⟨['t'], ['T'], ['u'], ['s'], ['d'], mkRat 9 10⟩],
      c.articleUrl = (⟨['T'], ['u'], ['s'], ['d'], mkRat 9 10⟩ : Citation).url ∧
      c.score = (⟨['T'], ['u'], ['s'], ['d'], mkRat 9 10⟩ : Citation).relevanceScore :=
  ((prepareSources_citations defaultRAGConfig (mkRat 7 10)
      [⟨['t'], ['T'], ['u'], ['s'], ['d'], mkRat 9 10⟩]).2.2.2
    ⟨['T'], ['u'], ['s'], ['d'], mkRat 9 10⟩ (by decide)).1
